import Mathlib

/-!
Verification development for `virtinst/xmlbuilder.py`: the object/XML mapper
with staged scalar writes, lazy reads, defaults, and ordered emission.

The Python source is shallowly embedded: Python values flowing through the
property machinery become `PyVal`; the backing XML document (accessed through
the external `XMLAPI` adapter, which is not part of this repository's core
sources) is modelled from the spec's Document Adapter contract as a
path-indexed store; every operation that can raise in Python returns
`Except String _`.
-/

set_option maxHeartbeats 1000000

/-- Python values that flow through `XMLProperty` getters/setters:
`None`, `str`, `int`, `bool`. -/
inductive PyVal where
  | vNone : PyVal
  | vStr : String → PyVal
  | vInt : Int → PyVal
  | vBool : Bool → PyVal
deriving DecidableEq, Repr

deriving instance DecidableEq for Except

/-- Python truthiness `bool(val)` for the values we model. -/
def pyTruthy : PyVal → Bool
  | .vNone => false
  | .vStr s => s ≠ ""
  | .vInt n => n ≠ 0
  | .vBool b => b

/-- Python `str(n)` for an `int`. -/
def intRepr (n : Int) : String :=
  if n < 0 then "-" ++ Nat.repr n.natAbs else Nat.repr n.natAbs

/-- Python `str(val)`. -/
def pyStr : PyVal → String
  | .vNone => "None"
  | .vStr s => s
  | .vInt n => intRepr n
  | .vBool b => if b then "True" else "False"

/-- `pat` occurs as a contiguous substring of `s` (Python `pat in s`),
on character lists. -/
def listContainsSub (s pat : List Char) : Bool :=
  pat.isPrefixOf s ||
    match s with
    | [] => false
    | _ :: t => listContainsSub t pat

/-- Python's `pat in s` substring test on strings. -/
def strContains (s pat : String) : Bool :=
  listContainsSub s.data pat.data

/-- Value of one character as a digit, as accepted by Python `int(s, base)`. -/
def digitVal (c : Char) : Option Nat :=
  if '0' ≤ c ∧ c ≤ '9' then some (c.toNat - '0'.toNat)
  else if 'a' ≤ c ∧ c ≤ 'f' then some (c.toNat - 'a'.toNat + 10)
  else if 'A' ≤ c ∧ c ≤ 'F' then some (c.toNat - 'A'.toNat + 10)
  else none

/-- Parse a non-empty run of digits in the given base; `none` on a bad digit
or an empty run, like Python `int`. -/
def parseDigits (base : Nat) (cs : List Char) (acc : Nat) : Option Nat :=
  match cs with
  | [] => some acc
  | c :: rest =>
    match digitVal c with
    | some d => if d < base then parseDigits base rest (acc * base + d) else none
    | none => none

/-- Python `int(s, base)` for the shapes this code feeds it: an optional
sign, an optional `0x`/`0X` marker when base is 16, then digits. -/
def pyIntStr (s : String) (base : Nat) : Option Int :=
  let cs := s.data
  let (neg, cs) :=
    match cs with
    | '-' :: rest => (true, rest)
    | '+' :: rest => (false, rest)
    | _ => (false, cs)
  let cs :=
    match base, cs with
    | 16, '0' :: 'x' :: rest => rest
    | 16, '0' :: 'X' :: rest => rest
    | _, rest => rest
  if cs.isEmpty then none
  else
    match parseDigits base cs 0 with
    | some n => some (if neg then -(n : Int) else (n : Int))
    | none => none

/-- Python `int(val, **intkwargs)`: the optional argument is the explicit
`base` keyword (`none` means the keyword was not passed). Passing an explicit
base together with a non-string raises `TypeError`. -/
def pyIntCall (val : PyVal) (base : Option Nat) : Except String PyVal :=
  match val, base with
  | .vStr s, b =>
    match pyIntStr s (b.getD 10) with
    | some n => .ok (.vInt n)
    | none => .error "ValueError: invalid literal for int()"
  | .vInt n, none => .ok (.vInt n)
  | .vBool b, none => .ok (.vInt (if b then 1 else 0))
  | .vNone, _ => .error "TypeError: int() argument must not be None"
  | _, some _ => .error "TypeError: int() can't convert non-string with explicit base"

/-- Truthiness of the `_default_name` attribute (`if self._default_name`):
it is a string when present, falsy when empty or absent. -/
def truthyName : Option String → Bool
  | none => false
  | some s => s ≠ ""

/-- Embedding of one `XMLProperty` descriptor (`xmlbuilder.py` lines
166-237). Callbacks that in Python receive the `xmlbuilder` instance are
modelled by the data this file needs from them: `default_cb` by the value the
callback returns, `validate_cb` by a value predicate that either accepts or
raises, `set_converter` by a value-to-value function, and the `os.path.abspath`
collaborator used by `do_abspath` by an explicit string function. -/
structure XMLPropertySpec where
  xpath : String
  is_bool : Bool
  is_int : Bool
  is_yesno : Bool
  is_onoff : Bool
  do_abspath : Bool
  default_name : Option String
  default_cb : Option PyVal
  validate_cb : Option (PyVal → Except String Unit)
  set_converter : Option (PyVal → PyVal)
  abspath_impl : String → String

/-- Number of conversion-kind flags that are enabled
(`sum([int(bool(i)) for i in [...]])`, lines 221-223). -/
def kindCount (is_bool is_int is_yesno is_onoff : Bool) : Nat :=
  (if is_bool then 1 else 0) + (if is_int then 1 else 0) +
  (if is_yesno then 1 else 0) + (if is_onoff then 1 else 0)

/-- `XMLProperty.__init__` (lines 167-233): checks, in source order, that an
xpath was passed, that at most one conversion kind is enabled, and that
`default_name` comes with `default_cb`; otherwise returns the descriptor. -/
def xmlproperty_init (xpath : String)
    (set_converter : Option (PyVal → PyVal))
    (validate_cb : Option (PyVal → Except String Unit))
    (is_bool is_int is_yesno is_onoff : Bool)
    (default_cb : Option PyVal) (default_name : Option String)
    (do_abspath : Bool) (abspath_impl : String → String) :
    Except String XMLPropertySpec :=
  if xpath = "" then
    .error "XMLProperty: xpath must be passed."
  else if kindCount is_bool is_int is_yesno is_onoff > 1 then
    .error "Conflict property converter options."
  else if truthyName default_name && default_cb.isNone then
    .error "default_name requires default_cb."
  else
    .ok { xpath := xpath, is_bool := is_bool, is_int := is_int,
          is_yesno := is_yesno, is_onoff := is_onoff,
          do_abspath := do_abspath, default_name := default_name,
          default_cb := default_cb, validate_cb := validate_cb,
          set_converter := set_converter, abspath_impl := abspath_impl }

/-- `XMLProperty._convert_get_value` (lines 244-261): XML-to-API conversion
applied by the getter. The `elif` chain is kept in source order; `int`
parsing picks base 16 when the text contains `0x`. -/
def convert_get_value (p : XMLPropertySpec) (val : PyVal) : Except String PyVal :=
  if truthyName p.default_name && (val == .vStr (p.default_name.getD "")) then
    .ok val
  else if p.is_bool then
    .ok (.vBool (pyTruthy val))
  else if p.is_int && (val != .vNone) then
    pyIntCall val (if strContains (pyStr val) "0x" then some 16 else none)
  else if p.is_yesno && (val != .vNone) then
    .ok (.vBool (val == .vStr "yes"))
  else if p.is_onoff && (val != .vNone) then
    .ok (.vBool (val == .vStr "on"))
  else
    .ok val

/-- `XMLProperty._convert_set_value` (lines 263-280): API-to-XML conversion
applied by the setter before staging, then the optional `set_converter`.
Note the integer branch parses hex or decimal text into a plain `int`
value: the textual representation is not kept. -/
def convert_set_value (p : XMLPropertySpec) (val : PyVal) : Except String PyVal :=
  let step1 : Except String PyVal :=
    if truthyName p.default_name && (val == .vStr (p.default_name.getD "")) then
      match p.default_cb with
      | some d => .ok d
      | none => .error "TypeError: NoneType object is not callable"
    else if p.do_abspath && (val != .vNone) then
      match val with
      | .vStr s => .ok (.vStr (p.abspath_impl s))
      | _ => .error "TypeError: expected str for abspath"
    else if p.is_onoff && (val != .vNone) then
      .ok (.vStr (if pyTruthy val then "on" else "off"))
    else if p.is_yesno && (val != .vNone) then
      .ok (.vStr (if pyTruthy val then "yes" else "no"))
    else if p.is_int && (val != .vNone) then
      pyIntCall val (if strContains (pyStr val) "0x" then some 16 else none)
    else
      .ok val
  match step1 with
  | .error e => .error e
  | .ok v =>
    match p.set_converter with
    | some f => .ok (f v)
    | none => .ok v

/-- Modelled from the spec: the Document Adapter's backing tree (the
`XMLAPI` class lives outside this repository's core sources; §6 of the spec
gives only its contract). A document is a path-indexed store: a list of
(absolute xpath, text content) entries in document order. -/
abbrev Doc : Type := List (String × String)

/-- Content stored at an exact path, if the node exists (first match in
document order). -/
def Doc.lookupPath : Doc → String → Option String
  | [], _ => none
  | e :: t, p => if e.1 = p then some e.2 else Doc.lookupPath t p

/-- Overwrite the content at a path, creating the node at the end of the
document when absent. -/
def Doc.setPath (d : Doc) (p : String) (v : String) : Doc :=
  if (d.find? (fun e => e.1 == p)).isSome then
    d.map (fun e => if e.1 == p then (e.1, v) else e)
  else
    d ++ [(p, v)]

/-- One string begins another, compared character-wise. -/
def strHasPre (p q : String) : Bool :=
  p.data.isPrefixOf q.data

/-- `q` lies at `p` or strictly inside `p`'s subtree. -/
def pathWithin (p q : String) : Bool :=
  q == p || strHasPre (p ++ "/") q

/-- Modelled from the spec: `read(path, as_presence_bool)` — presence reads
report whether the node exists, plain reads return its text or `None`
(`XMLAPI.get_xpath_content`). -/
def Doc.get_xpath_content (d : Doc) (p : String) (is_bool : Bool) : PyVal :=
  if is_bool then .vBool (d.lookupPath p).isSome
  else
    match d.lookupPath p with
    | some s => .vStr s
    | none => .vNone

/-- Modelled from the spec: `write(path, text)` — the adapter stores the
staged value's text rendering (`XMLAPI.set_xpath_content`). A `None` or
presence-`False` value removes the node, presence-`True` creates an empty
node (§8: presence maps node-exists to true, node-absent to false). -/
def Doc.set_xpath_content (d : Doc) (p : String) (v : PyVal) : Doc :=
  match v with
  | .vNone => d.filter (fun e => !(e.1 == p))
  | .vBool false => d.filter (fun e => !(e.1 == p))
  | .vBool true => d.setPath p ""
  | .vInt n => d.setPath p (intRepr n)
  | .vStr s => d.setPath p s

/-- Modelled from the spec: `clear_node(path)` — blank a node's content,
keep it addressable (`XMLAPI.node_clear`). The entry stays in place with
empty content; entries strictly inside its subtree are dropped. -/
def Doc.node_clear : Doc → String → Doc
  | [], _ => []
  | e :: t, p =>
    if strHasPre (p ++ "/") e.1 then Doc.node_clear t p
    else if e.1 = p then (e.1, "") :: Doc.node_clear t p
    else e :: Doc.node_clear t p

/-- Modelled from the spec: `remove_node(path)` — delete a node and its
subtree (`XMLAPI.node_force_remove`). -/
def Doc.node_force_remove : Doc → String → Doc
  | [], _ => []
  | e :: t, p =>
    if pathWithin p e.1 then Doc.node_force_remove t p
    else e :: Doc.node_force_remove t p

/-- Modelled from the spec: `render(path)` — serialize the subtree rooted
at a position (`XMLAPI.get_xml`): here, its entries as `path=text` lines. -/
def Doc.render (d : Doc) (p : String) : String :=
  String.intercalate "\n"
    ((d.filter (fun e => pathWithin p e.1)).map (fun e => e.1 ++ "=" ++ e.2))

/-- `_XMLState` (lines 398-468): the per-instance document bookkeeping.
The shared `xmlapi` handle is carried as a document value; emission threads
it explicitly, mirroring the save/restore in `_add_parse_bits`. -/
structure XMLState where
  parent_xpath : String
  relative_object_xpath : String
  is_build : Bool
  xmlapi : Doc

/-- One string ends in another (Python `str.endswith`), compared
character-wise. -/
def strEndsWith (s t : String) : Bool :=
  t.data.isSuffixOf s.data

/-- `_XMLState._join_xpath` (lines 449-454): drop a trailing `/` from the
first part and a leading `.` from the second, then concatenate. -/
def join_xpath (x1 x2 : String) : String :=
  let y1 := if x1.data.getLast? = some '/' then String.mk x1.data.dropLast else x1
  let y2 := if x2.data.head? = some '.' then String.mk (x2.data.drop 1) else x2
  y1 ++ y2

/-- `_XMLState.abs_xpath` (lines 456-458); Python `or "."` maps the empty
string to `"."`. -/
def XMLState.abs_xpath (st : XMLState) : String :=
  join_xpath (if st.parent_xpath = "" then "." else st.parent_xpath)
             (if st.relative_object_xpath = "" then "." else st.relative_object_xpath)

/-- `_XMLState.make_abs_xpath` (lines 460-468). -/
def XMLState.make_abs_xpath (st : XMLState) (xpath : String) : String :=
  join_xpath (if st.abs_xpath = "" then "." else st.abs_xpath) xpath

/-- The regex `^.*\[\d+\]$` of `XMLBuilder.clear` (line 602): the xpath
ends in `[` followed by one or more digits followed by `]`. -/
def endsWithIndex (s : String) : Bool :=
  match s.data.reverse with
  | ']' :: rest =>
    let ds := rest.takeWhile (fun c => c.isDigit)
    !ds.isEmpty &&
      (match rest.drop ds.length with
       | '[' :: _ => true
       | _ => false)
  | _ => false

/-- The per-instance data of one `XMLBuilder` object, children aside:
the ordered property store (`self._propstore`), the xml state, the class's
scalar descriptors keyed by field name (`_all_xml_props`), the child
descriptor field names (`_all_child_props` keys), and `_XML_PROP_ORDER`. -/
structure InstCore where
  propstore : List (String × PyVal)
  xmlstate : XMLState
  props : List (String × XMLPropertySpec)
  childnames : List String
  xml_prop_order : List String

/-- `XMLProperty._nonxml_fset` (lines 313-323): if the key is present it is
deleted first, then the pair is stored — so a re-staged key moves to the
end of the ordered store. -/
def nonxml_fset (ps : List (String × PyVal)) (name : String) (val : PyVal) :
    List (String × PyVal) :=
  (ps.filter (fun e => !(e.1 == name))) ++ [(name, val)]

/-- `XMLProperty._default_get_value` (lines 282-296): returns
(can use default, default value); `(False, -1)` unless in build mode with
the property unstaged and a default callback registered. -/
def default_get_value (p : XMLPropertySpec) (name : String) (b : InstCore) :
    Bool × PyVal :=
  if !b.xmlstate.is_build then (false, .vInt (-1))
  else if (b.propstore.lookup name).isSome then (false, .vInt (-1))
  else if p.default_cb.isNone then (false, .vInt (-1))
  else if truthyName p.default_name then (true, .vStr (p.default_name.getD ""))
  else (true, p.default_cb.getD .vNone)

/-- `XMLProperty._nonxml_fget` (lines 325-333). -/
def nonxml_fget (p : XMLPropertySpec) (name : String) (b : InstCore) : PyVal :=
  let dv := default_get_value p name b
  if dv.1 then dv.2
  else (b.propstore.lookup name).getD .vNone

/-- `XMLProperty._get_xml` (lines 367-373): read through to the backing
document at the resolved absolute xpath. -/
def get_xml_prop (p : XMLPropertySpec) (b : InstCore) : PyVal :=
  b.xmlstate.xmlapi.get_xpath_content (b.xmlstate.make_abs_xpath p.xpath) p.is_bool

/-- `XMLProperty.getter` (lines 346-365): staged or build-mode reads come
from the property store (with default injection), parse-mode unstaged reads
come from the document; the get conversion is applied either way. -/
def getter (p : XMLPropertySpec) (name : String) (b : InstCore) :
    Except String PyVal :=
  let val :=
    if (b.propstore.lookup name).isSome || b.xmlstate.is_build then
      nonxml_fget p name b
    else
      get_xml_prop p b
  convert_get_value p val

/-- `XMLProperty.setter` (lines 375-388): optionally validate, then stage
the converted value in the property store. The backing document is not
touched; on a validation or conversion error nothing is staged. -/
def setter (p : XMLPropertySpec) (name : String) (b : InstCore) (val : PyVal)
    (validate : Bool) : Except String InstCore :=
  let vres : Except String Unit :=
    if validate then
      match p.validate_cb with
      | some cb => cb val
      | none => .ok ()
    else .ok ()
  match vres with
  | .error e => .error e
  | .ok _ =>
    match convert_set_value p val with
    | .error e => .error e
    | .ok conv => .ok { b with propstore := nonxml_fset b.propstore name conv }

/-- `XMLProperty._set_default` (lines 299-311): during emission, stage the
registered default (without validation) when `_default_get_value` allows. -/
def set_default (p : XMLPropertySpec) (name : String) (b : InstCore) :
    Except String InstCore :=
  let dv := default_get_value p name b
  if dv.1 then setter p name b dv.2 false else .ok b

/-- `XMLProperty._set_xml` (lines 390-395): write the staged value into the
document at the resolved absolute xpath. -/
def set_xml_prop (p : XMLPropertySpec) (b : InstCore) (api : Doc) (setval : PyVal) :
    Doc :=
  api.set_xpath_content (b.xmlstate.make_abs_xpath p.xpath) setval

/-- The defaults pass of `_do_add_parse_bits` (lines 767-772):
`for prop in xmlprops.values(): prop._set_default(self)`, threading the
property store. -/
def stage_defaults (props : List (String × XMLPropertySpec)) (b : InstCore) :
    Except String InstCore :=
  match props with
  | [] => .ok b
  | (n, p) :: rest =>
    match set_default p n b with
    | .error e => .error e
    | .ok b2 => stage_defaults rest b2

/-- The scalar part of the `prop.clear` loop in `XMLBuilder.clear`
(lines 597-600) with `XMLProperty.clear` (lines 335-339): every staged
scalar is re-set to `None` through the setter. -/
def clearProps (props : List (String × XMLPropertySpec)) (b : InstCore) :
    Except String InstCore :=
  match props with
  | [] => .ok b
  | (n, p) :: rest =>
    match (if (b.propstore.lookup n).isSome then setter p n b .vNone true else .ok b) with
    | .error e => .error e
    | .ok b2 => clearProps rest b2

/-- One pass of the priority-reorder loop of `_do_add_parse_bits`
(lines 776-781): a key already in `do_order` is moved to the front, a key
naming a child property is inserted at the front, anything else is skipped. -/
def orderStep (childnames : List String) (acc : List String) (key : String) :
    List String :=
  if key ∈ acc then key :: acc.erase key
  else if key ∈ childnames then key :: acc
  else acc

/-- Lexicographic code-point comparison of character lists, as Python
compares strings. -/
def listLe : List Char → List Char → Bool
  | [], _ => true
  | _ :: _, [] => false
  | a :: as, b :: bs =>
    if a.toNat < b.toNat then true
    else if b.toNat < a.toNat then false
    else listLe as bs

/-- Python string `<=`. -/
def strLeB (a b : String) : Bool :=
  listLe a.data b.data

/-- Insert into an ascending list. -/
def insertSorted (a : String) : List String → List String
  | [] => [a]
  | b :: rest => if strLeB a b then a :: b :: rest else b :: insertSorted a rest

/-- Python `sorted` on field names: ascending lexicographic order. -/
def sortedStrings : List String → List String
  | [] => []
  | a :: rest => insertSorted a (sortedStrings rest)

/-- The `do_order` computation of `_do_add_parse_bits` (lines 774-785):
start from the property-store keys that are not child properties, walk the
priority list in reverse moving/inserting keys at the front, then append
the child property names, sorted, that are not yet placed. -/
def do_order_calc (propkeys childnames order : List String) : List String :=
  let init := propkeys.filter (fun p => decide (p ∉ childnames))
  let mid := (order.reverse).foldl (orderStep childnames) init
  (sortedStrings childnames).foldl
    (fun acc key => if key ∈ acc then acc else acc ++ [key]) mid

mutual
/-- The object tree of `XMLBuilder` instances: an instance is its core data
plus, for every child descriptor field, its singular/plural flag and the
nested instances currently held in the property store
(`XMLChildProperty._get`, `_initial_child_parse`). -/
inductive Builder : Type where
  | mk : InstCore → ChildForest → Builder

inductive ChildForest : Type where
  | nil : ChildForest
  | cons : String → Bool → BuilderList → ChildForest → ChildForest

inductive BuilderList : Type where
  | nil : BuilderList
  | cons : Builder → BuilderList → BuilderList
end

/-- The `InstCore` of a builder. -/
def Builder.core : Builder → InstCore
  | .mk c _ => c

/-- The child forest of a builder. -/
def Builder.children : Builder → ChildForest
  | .mk _ f => f

/-- The `do_order` list that `_do_add_parse_bits` computes for one
instance: defaults are staged first (lines 771-772), then the ordering is
derived from the resulting property store (lines 774-785). -/
def emission_order (b : Builder) : Except String (List String) :=
  match stage_defaults b.core.props b.core with
  | .error e => .error e
  | .ok core2 =>
    .ok (do_order_calc (core2.propstore.map Prod.fst)
          b.core.childnames b.core.xml_prop_order)

mutual
/-- Emission (`XMLBuilder._add_parse_bits` / `_do_add_parse_bits`, lines
752-793), threading the adapter handle explicitly. The property-store
mutations of the defaults pass stay local (`finally: self._propstore =
origpropstore`), so the builder tree itself is returned unchanged by the
caller `get_xml`. Writes happen in `do_order` order: scalars through
`_set_xml`, child blocks by recursing into each child object. -/
def emitBuilder (b : Builder) (api : Doc) : Except String Doc :=
  match b with
  | .mk core cf =>
    match stage_defaults core.props core with
    | .error e => .error e
    | .ok core2 =>
      emitKeys core2 cf
        (do_order_calc (core2.propstore.map Prod.fst) core.childnames
          core.xml_prop_order) api
termination_by (sizeOf b, 2, 0)

def emitKeys (core : InstCore) (cf : ChildForest) (keys : List String)
    (api : Doc) : Except String Doc :=
  match keys with
  | [] => .ok api
  | key :: rest =>
    match core.props.lookup key with
    | some p =>
      emitKeys core cf rest
        (set_xml_prop p core api ((core.propstore.lookup key).getD .vNone))
    | none =>
      if key ∈ core.childnames then
        match emitForestKey cf key api with
        | .error e => .error e
        | .ok api2 => emitKeys core cf rest api2
      else
        emitKeys core cf rest api
termination_by (sizeOf cf, 1, keys.length)

def emitForestKey (cf : ChildForest) (key : String) (api : Doc) :
    Except String Doc :=
  match cf with
  | .nil => .ok api
  | .cons n _ objs rest =>
    if n = key then emitList objs api else emitForestKey rest key api
termination_by (sizeOf cf, 0, 0)

def emitList (bl : BuilderList) (api : Doc) : Except String Doc :=
  match bl with
  | .nil => .ok api
  | .cons b rest =>
    match emitBuilder b api with
    | .error e => .error e
    | .ok api2 => emitList rest api2
termination_by (sizeOf bl, 2, 0)
end

mutual
/-- Point every instance of the tree at a new shared handle value: models
that in parse mode the live `xmlapi` object, borrowed by every attached
descendant, was mutated in place during emission. -/
def setApiBuilder : Builder → Doc → Builder
  | .mk core cf, api =>
    .mk { core with xmlstate := { core.xmlstate with xmlapi := api } }
      (setApiForest cf api)

def setApiForest : ChildForest → Doc → ChildForest
  | .nil, _ => .nil
  | .cons n s objs rest, api =>
    .cons n s (setApiList objs api) (setApiForest rest api)

def setApiList : BuilderList → Doc → BuilderList
  | .nil, _ => .nil
  | .cons b rest, api => .cons (setApiBuilder b api) (setApiList rest api)
end

/-- `XMLBuilder.get_xml` (lines 575-588): in build mode emission runs
against a copy of the document handle (`copy_api`) so the instance and its
document are left exactly as they were; in parse mode the writes land on
the live shared handle. The rendered text gets a trailing newline when
non-empty and missing one. -/
def get_xml (b : Builder) : Except String (String × Builder) :=
  match emitBuilder b b.core.xmlstate.xmlapi with
  | .error e => .error e
  | .ok api2 =>
    let ret := Doc.render api2 (b.core.xmlstate.make_abs_xpath ".")
    let ret2 := if ret ≠ "" ∧ ¬ strEndsWith ret "\n" then ret ++ "\n" else ret
    .ok (ret2, if b.core.xmlstate.is_build then b else setApiBuilder b api2)

/-- Document effect of emptying a plural child list in
`XMLChildProperty.clear` (lines 151-153): each child goes through
`XMLBuilder.remove_child` (lines 732-745), whose net effect on the backing
document is the removal of that child's subtree. -/
def removeAllNodes : BuilderList → Doc → Doc
  | .nil, doc => doc
  | .cons b rest, doc =>
    removeAllNodes rest (doc.node_force_remove b.core.xmlstate.abs_xpath)

mutual
/-- `XMLBuilder.clear` (lines 590-611): stage `None` over every staged
scalar, clear every child property (`XMLChildProperty.clear`, lines
148-153: a singular child object is recursively cleared, a plural child
list is emptied through `remove_child`), then — if this object's absolute
xpath ends in a sibling index (regex `^.*\[\d+\]$`) or a stub was asked
for — blank the node's content in place, else remove the node entirely. -/
def clearBuilder (b : Builder) (doc : Doc) (leave_stub : Bool) :
    Except String (Builder × Doc) :=
  match b with
  | .mk core cf =>
    match clearProps core.props core with
    | .error e => .error e
    | .ok core2 =>
      match clearForest cf doc with
      | .error e => .error e
      | .ok (cf2, doc2) =>
        let p := core.xmlstate.abs_xpath
        if endsWithIndex p || leave_stub then
          .ok (.mk core2 cf2, doc2.node_clear p)
        else
          .ok (.mk core2 cf2, doc2.node_force_remove p)
termination_by (sizeOf b, 0)

def clearForest (cf : ChildForest) (doc : Doc) :
    Except String (ChildForest × Doc) :=
  match cf with
  | .nil => .ok (.nil, doc)
  | .cons n single objs rest =>
    if single then
      match clearSingleList objs doc with
      | .error e => .error e
      | .ok (objs2, doc2) =>
        match clearForest rest doc2 with
        | .error e => .error e
        | .ok (rest2, doc3) => .ok (.cons n single objs2 rest2, doc3)
    else
      match clearForest rest (removeAllNodes objs doc) with
      | .error e => .error e
      | .ok (rest2, doc3) => .ok (.cons n single .nil rest2, doc3)
termination_by (sizeOf cf, 0)

def clearSingleList (bl : BuilderList) (doc : Doc) :
    Except String (BuilderList × Doc) :=
  match bl with
  | .nil => .ok (.nil, doc)
  | .cons b rest =>
    match clearBuilder b doc false with
    | .error e => .error e
    | .ok (b2, doc2) =>
      match clearSingleList rest doc2 with
      | .error e => .error e
      | .ok (rest2, doc3) => .ok (.cons b2 rest2, doc3)
termination_by (sizeOf bl, 1)
end

mutual
/-- Well-nestedness of a builder tree: every attached descendant's
absolute xpath lies strictly inside its parent's subtree. This is how
`_initial_child_parse` and `_set_child_xpaths` lay children out
(each child xpath is the parent's absolute xpath joined with a relative
child path). -/
def nestedBuilder : Builder → Bool
  | .mk core cf => nestedForest core.xmlstate.abs_xpath cf

def nestedForest (root : String) : ChildForest → Bool
  | .nil => true
  | .cons _ _ objs rest => nestedList root objs && nestedForest root rest

def nestedList (root : String) : BuilderList → Bool
  | .nil => true
  | .cons b rest =>
    strHasPre (root ++ "/") b.core.xmlstate.abs_xpath && nestedBuilder b &&
      nestedList root rest
end

theorem emitKeys_nil (core : InstCore) (cf : ChildForest) (api : Doc) :
    emitKeys core cf [] api = .ok api := by
  rw [emitKeys]

theorem emitKeys_cons_prop (core : InstCore) (cf : ChildForest) (key : String)
    (rest : List String) (api : Doc) (p : XMLPropertySpec)
    (h : core.props.lookup key = some p) :
    emitKeys core cf (key :: rest) api =
      emitKeys core cf rest
        (set_xml_prop p core api ((core.propstore.lookup key).getD .vNone)) := by
  rw [emitKeys, h]

theorem emitBuilder_eq (core core2 : InstCore) (cf : ChildForest) (api : Doc)
    (h : stage_defaults core.props core = .ok core2) :
    emitBuilder (.mk core cf) api =
      emitKeys core2 cf
        (do_order_calc (core2.propstore.map Prod.fst) core.childnames
          core.xml_prop_order) api := by
  rw [emitBuilder, h]

/-- A plain integer-kind descriptor used by concrete witnesses. -/
def sampleIntProp : XMLPropertySpec :=
  { xpath := "./@val", is_bool := false, is_int := true, is_yesno := false,
    is_onoff := false, do_abspath := false, default_name := none,
    default_cb := none, validate_cb := none, set_converter := none,
    abspath_impl := id }

/-- A plain raw-text descriptor used by concrete witnesses. -/
def sampleStrProp : XMLPropertySpec :=
  { xpath := "./@name", is_bool := false, is_int := false, is_yesno := false,
    is_onoff := false, do_abspath := false, default_name := none,
    default_cb := none, validate_cb := none, set_converter := none,
    abspath_impl := id }

/-- C5: for an integer-kind descriptor (no sentinel, not boolean-presence),
the read conversion picks base 16 exactly when the source text contains
`0x`, base 10 otherwise; in particular `"0x10"` reads as 16 and `"10"`
reads as 10. -/
theorem convert_get_int_base_selection (p : XMLPropertySpec)
    (hint : p.is_int = true) (hbool : p.is_bool = false)
    (hdn : truthyName p.default_name = false) :
    (∀ s : String, convert_get_value p (.vStr s) =
        pyIntCall (.vStr s) (if strContains s "0x" then some 16 else none)) ∧
    convert_get_value p (.vStr "0x10") = .ok (.vInt 16) ∧
    convert_get_value p (.vStr "10") = .ok (.vInt 10) := by
  have hgen : ∀ s : String, convert_get_value p (.vStr s) =
      pyIntCall (.vStr s) (if strContains s "0x" then some 16 else none) := by
    intro s
    simp [convert_get_value, hint, hbool, hdn, pyStr]
  refine ⟨hgen, ?_, ?_⟩
  · rw [hgen]; decide
  · rw [hgen]; decide

/-- Witness for `convert_get_int_base_selection` at the sample integer
descriptor. -/
theorem convert_get_int_base_selection_witness :
    convert_get_value sampleIntProp (.vStr "0x10") = .ok (.vInt 16) ∧
    convert_get_value sampleIntProp (.vStr "10") = .ok (.vInt 10) :=
  (convert_get_int_base_selection sampleIntProp rfl rfl rfl).2

/-- C8: declaring more than one conversion kind on a descriptor (with an
xpath present) fails at construction with the conflict error; with one or
zero kinds the constructor never raises that error. -/
theorem xmlproperty_init_kind_conflict
    (xpath : String) (hx : xpath ≠ "")
    (sc : Option (PyVal → PyVal)) (vc : Option (PyVal → Except String Unit))
    (b i y o : Bool) (dcb : Option PyVal) (dn : Option String) (da : Bool)
    (ai : String → String) :
    (kindCount b i y o > 1 →
      xmlproperty_init xpath sc vc b i y o dcb dn da ai =
        .error "Conflict property converter options.") ∧
    (kindCount b i y o ≤ 1 →
      xmlproperty_init xpath sc vc b i y o dcb dn da ai ≠
        .error "Conflict property converter options.") := by
  constructor
  · intro hgt
    simp [xmlproperty_init, hx, hgt]
  · intro hle
    have hngt : ¬ kindCount b i y o > 1 := by omega
    simp only [xmlproperty_init, if_neg hx, if_neg hngt]
    split
    · intro hcontra
      exact absurd (Except.error.inj hcontra) (by decide)
    · intro hcontra
      exact Except.noConfusion hcontra

/-- Witness for `xmlproperty_init_kind_conflict`: two kinds enabled is
rejected with the conflict error, a single kind is not. -/
theorem xmlproperty_init_kind_conflict_witness :
    xmlproperty_init "./@val" none none false true true false none none false id =
      .error "Conflict property converter options." ∧
    xmlproperty_init "./@val" none none false true false false none none false id ≠
      .error "Conflict property converter options." :=
  ⟨(xmlproperty_init_kind_conflict "./@val" (by decide) none none false true true
      false none none false id).1 (by decide),
   (xmlproperty_init_kind_conflict "./@val" (by decide) none none false true false
      false none none false id).2 (by decide)⟩

/-- C2: a successful setter call never touches the xml state (and with it
the backing document handle); it only re-stages the converted value in the
property store. -/
theorem setter_preserves_document (p : XMLPropertySpec) (name : String)
    (b : InstCore) (val : PyVal) (validate : Bool) (b' : InstCore)
    (h : setter p name b val validate = .ok b') :
    b'.xmlstate = b.xmlstate ∧ b'.props = b.props ∧
      b'.childnames = b.childnames ∧ b'.xml_prop_order = b.xml_prop_order ∧
      ∃ conv, convert_set_value p val = .ok conv ∧
        b'.propstore = nonxml_fset b.propstore name conv := by
  unfold setter at h
  rcases hv : (if validate then
      match p.validate_cb with
      | some cb => cb val
      | none => Except.ok ()
    else Except.ok ()) with e | u
  · rw [hv] at h; exact Except.noConfusion h
  · rw [hv] at h
    rcases hc : convert_set_value p val with e | conv
    · rw [hc] at h; exact Except.noConfusion h
    · rw [hc] at h
      have hb : ({ b with propstore := nonxml_fset b.propstore name conv } :
          InstCore) = b' := Except.ok.inj h
      refine ⟨?_, ?_, ?_, ?_, conv, rfl, ?_⟩ <;> rw [← hb]

/-- A fresh build-mode xml state for concrete witnesses. -/
def sampleBuildState : XMLState :=
  { parent_xpath := "", relative_object_xpath := "", is_build := true,
    xmlapi := [] }

/-- A small build-mode instance core for concrete witnesses. -/
def sampleCore : InstCore :=
  { propstore := [], xmlstate := sampleBuildState,
    props := [("name", sampleStrProp)], childnames := [],
    xml_prop_order := [] }

/-- Witness for `setter_preserves_document` at a concrete successful set. -/
theorem setter_preserves_document_witness :
    setter sampleStrProp "name" sampleCore (.vStr "demo") true =
      .ok { sampleCore with propstore := [("name", .vStr "demo")] } ∧
    ({ sampleCore with propstore := [("name", .vStr "demo")] } :
        InstCore).xmlstate = sampleCore.xmlstate :=
  ⟨rfl, (setter_preserves_document sampleStrProp "name" sampleCore
      (.vStr "demo") true _ rfl).1⟩

/-- C7: when the validation callback rejects the value, the setter raises
that same error and stages nothing (there is no success state at all). -/
theorem setter_validation_rejection (p : XMLPropertySpec) (name : String)
    (b : InstCore) (val : PyVal) (cb : PyVal → Except String Unit) (e : String)
    (hcb : p.validate_cb = some cb) (hrej : cb val = .error e) :
    setter p name b val true = .error e := by
  simp [setter, hcb, hrej]

/-- Witness for `setter_validation_rejection` with a callback that rejects
everything. -/
theorem setter_validation_rejection_witness :
    setter { sampleStrProp with
        validate_cb := some (fun _ => .error "rejected") } "name"
      sampleCore (.vStr "demo") true = .error "rejected" :=
  setter_validation_rejection _ "name" sampleCore (.vStr "demo")
    (fun _ => .error "rejected") "rejected" rfl rfl

/-- C4: for an unstaged scalar with a registered default callback, the
build-mode getter returns the computed default run through the usual read
conversion — exactly the sentinel `default_name` when one is registered,
and exactly the callback's value for a plain descriptor — while the
parse-mode getter ignores the default entirely and reads through to the
document. -/
theorem getter_default_laziness (p : XMLPropertySpec) (name : String)
    (b : InstCore) (hunset : b.propstore.lookup name = none) :
    (∀ d, b.xmlstate.is_build = true → p.default_cb = some d →
      (p.default_name = none → getter p name b = convert_get_value p d) ∧
      (∀ dn, p.default_name = some dn → dn ≠ "" →
        getter p name b = .ok (.vStr dn)) ∧
      (p.default_name = none → p.is_bool = false → p.is_int = false →
        p.is_yesno = false → p.is_onoff = false → getter p name b = .ok d)) ∧
    (b.xmlstate.is_build = false →
      getter p name b =
        convert_get_value p
          (b.xmlstate.xmlapi.get_xpath_content
            (b.xmlstate.make_abs_xpath p.xpath) p.is_bool)) := by
  constructor
  · intro d hbuild hcb
    have hval : nonxml_fget p name b =
        (if truthyName p.default_name then .vStr (p.default_name.getD "") else d) := by
      by_cases hdn : truthyName p.default_name = true
      · simp [nonxml_fget, default_get_value, hbuild, hunset, hcb, hdn]
      · simp [nonxml_fget, default_get_value, hbuild, hunset, hcb, hdn]
    have hget : getter p name b =
        convert_get_value p
          (if truthyName p.default_name then .vStr (p.default_name.getD "") else d) := by
      simp [getter, hunset, hbuild, hval]
    refine ⟨?_, ?_, ?_⟩
    · intro hdn
      rw [hget, hdn]
      simp [truthyName]
    · intro dn hdn hne
      rw [hget, hdn]
      simp only [truthyName, if_pos (by simpa using hne)]
      simp [convert_get_value, truthyName, hdn, hne]
    · intro hdn hb hi hy ho
      rw [hget, hdn]
      simp [truthyName, convert_get_value, hdn, hb, hi, hy, ho]
  · intro hparse
    simp [getter, hunset, hparse, get_xml_prop]

/-- A parse-mode xml state over a one-attribute document, for witnesses. -/
def sampleParseState : XMLState :=
  { parent_xpath := "", relative_object_xpath := "", is_build := false,
    xmlapi := [("./@name", "fromdoc")] }

/-- A raw-text descriptor with a registered default, for witnesses. -/
def sampleDefProp : XMLPropertySpec :=
  { sampleStrProp with default_cb := some (.vStr "defval") }

/-- Build-mode instance core carrying `sampleDefProp`. -/
def sampleDefBuildCore : InstCore :=
  { sampleCore with props := [("name", sampleDefProp)] }

/-- Parse-mode instance core carrying `sampleDefProp`. -/
def sampleDefParseCore : InstCore :=
  { propstore := [], xmlstate := sampleParseState,
    props := [("name", sampleDefProp)], childnames := [],
    xml_prop_order := [] }

/-- Witness for `getter_default_laziness`: a defaulted string property
reads its default in build mode and reads the document in parse mode. -/
theorem getter_default_laziness_witness :
    getter sampleDefProp "name" sampleDefBuildCore = .ok (.vStr "defval") ∧
    getter sampleDefProp "name" sampleDefParseCore = .ok (.vStr "fromdoc") := by
  constructor
  · exact ((getter_default_laziness sampleDefProp "name" sampleDefBuildCore
        rfl).1 (.vStr "defval") rfl rfl).2.2 rfl rfl rfl rfl rfl
  · rw [(getter_default_laziness sampleDefProp "name" sampleDefParseCore
        rfl).2 rfl]
    decide

/-- C10: a successful `get_xml` returns the rendered text with the
trailing-newline fixup applied: the raw render result, plus exactly one
`"\n"` when it was non-empty and did not already end in one; the returned
text therefore ends in `"\n"` whenever it is non-empty. -/
theorem get_xml_trailing_newline (b : Builder) (s : String) (b2 : Builder)
    (h : get_xml b = .ok (s, b2)) :
    (∃ api2, emitBuilder b b.core.xmlstate.xmlapi = .ok api2 ∧
      s = (let raw := Doc.render api2 (b.core.xmlstate.make_abs_xpath ".")
           if raw ≠ "" ∧ ¬ strEndsWith raw "\n" then raw ++ "\n" else raw)) ∧
    (s ≠ "" → strEndsWith s "\n" = true) := by
  unfold get_xml at h
  cases hemit : emitBuilder b b.core.xmlstate.xmlapi with
  | error e => rw [hemit] at h; exact Except.noConfusion h
  | ok api2 =>
    rw [hemit] at h
    have hpair := Prod.mk.injEq .. ▸ Except.ok.inj h
    have hs := hpair.1
    refine ⟨⟨api2, rfl, hs.symm⟩, ?_⟩
    intro hne
    rw [← hs]
    rw [← hs] at hne
    set raw := Doc.render api2 (b.core.xmlstate.make_abs_xpath ".") with hraw
    by_cases hr0 : raw = ""
    · exfalso
      apply hne
      simp [hr0]
    · by_cases hrnl : strEndsWith raw "\n" = true
      · simp [hr0, hrnl]
      · have : (if raw ≠ "" ∧ ¬ strEndsWith raw "\n" then raw ++ "\n" else raw) =
            raw ++ "\n" := by
          simp [hr0, hrnl]
        rw [this]
        unfold strEndsWith
        rw [List.isSuffixOf_iff_suffix, String.data_append]
        exact List.suffix_append _ _

theorem get_xml_eq (b : Builder) (api2 : Doc)
    (h : emitBuilder b b.core.xmlstate.xmlapi = .ok api2) :
    get_xml b =
      .ok (let raw := Doc.render api2 (b.core.xmlstate.make_abs_xpath ".")
           (if raw ≠ "" ∧ ¬ strEndsWith raw "\n" then raw ++ "\n" else raw,
            if b.core.xmlstate.is_build then b else setApiBuilder b api2)) := by
  unfold get_xml
  rw [h]

/-- Instance core of the tiny build-mode builder used by witnesses: no
properties, no children, a one-node backing document. -/
def sampleBuilderCore : InstCore :=
  { propstore := [],
    xmlstate := { parent_xpath := "", relative_object_xpath := "",
                  is_build := true, xmlapi := [(".", "node")] },
    props := [], childnames := [], xml_prop_order := [] }

theorem sampleBuilder_emit :
    emitBuilder (.mk sampleBuilderCore .nil) [(".", "node")] =
      .ok [(".", "node")] := by
  have h := emitBuilder_eq sampleBuilderCore sampleBuilderCore .nil
    [(".", "node")] rfl
  rw [h]
  show emitKeys sampleBuilderCore .nil [] [(".", "node")] = _
  exact emitKeys_nil _ _ _

/-- Witness for `get_xml_trailing_newline`: the tiny builder renders
`".=node"` and gets exactly one newline appended. -/
theorem get_xml_trailing_newline_witness :
    get_xml (.mk sampleBuilderCore .nil) =
      .ok (".=node\n", .mk sampleBuilderCore .nil) ∧
    strEndsWith ".=node\n" "\n" = true := by
  have hget : get_xml (.mk sampleBuilderCore .nil) =
      .ok (".=node\n", .mk sampleBuilderCore .nil) := by
    rw [get_xml_eq (.mk sampleBuilderCore .nil) [(".", "node")] sampleBuilder_emit]
    rfl
  exact ⟨hget,
    (get_xml_trailing_newline (.mk sampleBuilderCore .nil) ".=node\n"
      (.mk sampleBuilderCore .nil) hget).2 (by decide)⟩

/-- C3: on a build-mode instance a successful `get_xml` leaves the whole
instance — property store, xml state, document handle, children —
untouched, so a second call returns the identical text. -/
theorem get_xml_build_idempotent (b : Builder)
    (hbuild : b.core.xmlstate.is_build = true)
    (s : String) (b2 : Builder) (h : get_xml b = .ok (s, b2)) :
    b2 = b ∧ get_xml b2 = .ok (s, b2) := by
  have hb2 : b2 = b := by
    unfold get_xml at h
    cases hemit : emitBuilder b b.core.xmlstate.xmlapi with
    | error e => rw [hemit] at h; exact Except.noConfusion h
    | ok api2 =>
      rw [hemit] at h
      simp only [hbuild, if_true] at h
      exact ((Prod.mk.injEq .. ▸ Except.ok.inj h).2).symm
  subst hb2
  exact ⟨rfl, h⟩

/-- Witness for `get_xml_build_idempotent` at the tiny build-mode
builder: the call succeeds, the instance is returned unchanged, and the
repeated call gives the identical text. -/
theorem get_xml_build_idempotent_witness :
    get_xml (.mk sampleBuilderCore .nil) =
      .ok (".=node\n", .mk sampleBuilderCore .nil) ∧
    (Builder.mk sampleBuilderCore .nil).core.xmlstate.is_build = true := by
  have hget : get_xml (.mk sampleBuilderCore .nil) =
      .ok (".=node\n", .mk sampleBuilderCore .nil) := by
    rw [get_xml_eq (.mk sampleBuilderCore .nil) [(".", "node")] sampleBuilder_emit]
    rfl
  exact ⟨(get_xml_build_idempotent (.mk sampleBuilderCore .nil) rfl ".=node\n"
    (.mk sampleBuilderCore .nil) hget).2, rfl⟩

theorem digitChar_isDigit (m : Nat) (h : m < 10) :
    (Nat.digitChar m).isDigit = true := by
  interval_cases m <;> decide

theorem toDigitsCore_all_digits (fuel : Nat) :
    ∀ (n : Nat) (ds : List Char), (∀ c ∈ ds, c.isDigit = true) →
      ∀ c ∈ Nat.toDigitsCore 10 fuel n ds, c.isDigit = true := by
  induction fuel with
  | zero =>
    intro n ds hds c hc
    rw [Nat.toDigitsCore] at hc
    exact hds c hc
  | succ f ih =>
    intro n ds hds c hc
    rw [Nat.toDigitsCore] at hc
    by_cases h0 : n / 10 = 0
    · simp only [if_pos h0] at hc
      rcases List.mem_cons.mp hc with h | h
      · subst h
        exact digitChar_isDigit _ (Nat.mod_lt _ (by omega))
      · exact hds c h
    · simp only [if_neg h0] at hc
      refine ih (n / 10) _ (fun c' hc' => ?_) c hc
      rcases List.mem_cons.mp hc' with h | h
      · subst h
        exact digitChar_isDigit _ (Nat.mod_lt _ (by omega))
      · exact hds c' h

theorem repr_all_digits (n : Nat) : ∀ c ∈ (Nat.repr n).data, c.isDigit = true :=
  toDigitsCore_all_digits (n + 1) n [] (by simp)

theorem listContainsSub_mem (s pat : List Char)
    (h : listContainsSub s pat = true) : ∀ c ∈ pat, c ∈ s := by
  induction s with
  | nil =>
    intro c hc
    rw [listContainsSub] at h
    simp only [Bool.or_false] at h
    have : pat = [] := by
      cases pat with
      | nil => rfl
      | cons a t => simp [List.isPrefixOf] at h
    subst this
    exact absurd hc (List.not_mem_nil c)
  | cons a t ih =>
    intro c hc
    rw [listContainsSub] at h
    rcases Bool.or_eq_true_iff.mp h with h' | h'
    · exact (List.IsPrefix.subset (List.isPrefixOf_iff_prefix.mp h')) hc
    · exact List.mem_cons_of_mem a (ih h' c hc)

/-- The decimal rendering of a non-negative integer never contains the hex
marker `0x`. -/
theorem intRepr_no_hex (n : Nat) :
    strContains (intRepr (n : Int)) "0x" = false := by
  rw [Bool.eq_false_iff]
  intro hcontra
  have hx : 'x' ∈ (intRepr (n : Int)).data :=
    listContainsSub_mem _ _ hcontra 'x' (by decide)
  have hdata : (intRepr (n : Int)).data = (Nat.repr n).data := by
    unfold intRepr
    rw [if_neg (show ¬ (n : Int) < 0 from Int.not_lt.mpr (Int.natCast_nonneg n))]
    rfl
  rw [hdata] at hx
  exact absurd (repr_all_digits n 'x' hx) (by decide)

/-- Parse-mode instance core whose document holds the hex text `0x10` at
the integer property's path. -/
def hexParseCore : InstCore :=
  { propstore := [],
    xmlstate := { parent_xpath := "", relative_object_xpath := "",
                  is_build := false, xmlapi := [("./@val", "0x10")] },
    props := [("val", sampleIntProp)], childnames := [],
    xml_prop_order := [] }

/-- `hexParseCore` after writing back the integer that was read. -/
def hexStagedCore : InstCore :=
  { hexParseCore with propstore := [("val", .vInt 16)] }

/-- C6 counterexample: reading `0x10` yields the plain integer 16; writing
that value back and flushing stores the decimal text `16` — which contains
no hex marker — in the document, not a hexadecimal rendering. -/
theorem int_hex_flush_counterexample :
    getter sampleIntProp "val" hexParseCore = .ok (.vInt 16) ∧
    setter sampleIntProp "val" hexParseCore (.vInt 16) true = .ok hexStagedCore ∧
    emitBuilder (.mk hexStagedCore .nil) [("./@val", "0x10")] =
      .ok [("./@val", "16")] ∧
    Doc.lookupPath [("./@val", "16")] "./@val" = some "16" ∧
    strContains "16" "0x" = false := by
  refine ⟨by decide, rfl, ?_, by decide, by decide⟩
  rw [emitBuilder_eq hexStagedCore hexStagedCore .nil [("./@val", "0x10")] rfl]
  show emitKeys hexStagedCore .nil ["val"] [("./@val", "0x10")] = _
  rw [emitKeys_cons_prop hexStagedCore .nil "val" [] [("./@val", "0x10")]
    sampleIntProp rfl]
  rw [emitKeys_nil]
  rfl

/-- C6 amended: for a plain integer descriptor, a value read from hex
source text is the plain integer (base-16 parse); writing it back stages
that integer unchanged, and the flush write renders it through the decimal
string conversion, whose output never contains the `0x` marker — the hex
representation family is not preserved. -/
theorem int_set_flush_renders_decimal (p : XMLPropertySpec) (name : String)
    (b : InstCore) (s : String) (n : Nat)
    (hint : p.is_int = true) (hbool : p.is_bool = false)
    (hyes : p.is_yesno = false) (hono : p.is_onoff = false)
    (habs : p.do_abspath = false) (hdn : truthyName p.default_name = false)
    (hconv : p.set_converter = none) (hval : p.validate_cb = none)
    (hhex : strContains s "0x" = true)
    (hparse : pyIntStr s 16 = some ((n : Int))) :
    (b.propstore.lookup name = none → b.xmlstate.is_build = false →
      b.xmlstate.xmlapi.lookupPath (b.xmlstate.make_abs_xpath p.xpath) = some s →
      getter p name b = .ok (.vInt ((n : Int)))) ∧
    setter p name b (.vInt ((n : Int))) true =
      .ok { b with propstore := nonxml_fset b.propstore name (.vInt ((n : Int))) } ∧
    (∀ api : Doc, set_xml_prop p b api (.vInt ((n : Int))) =
      api.setPath (b.xmlstate.make_abs_xpath p.xpath) (intRepr ((n : Int)))) ∧
    strContains (intRepr ((n : Int))) "0x" = false := by
  refine ⟨?_, ?_, ?_, intRepr_no_hex n⟩
  · intro hunset hparsemode hdoc
    have hread : get_xml_prop p b = .vStr s := by
      simp [get_xml_prop, Doc.get_xpath_content, hbool, hdoc]
    simp only [getter, hunset, hparsemode, Option.isSome_none, Bool.false_eq_true,
      false_or, if_false, hread]
    simp [convert_get_value, hdn, hbool, hint, pyStr, hhex, pyIntCall, hparse]
  · have hnohex : strContains (pyStr (.vInt ((n : Int)))) "0x" = false :=
      intRepr_no_hex n
    simp [setter, hval, convert_set_value, hdn, habs, hono, hyes, hint, hnohex,
      pyIntCall, hconv]
  · intro api
    simp [set_xml_prop, Doc.set_xpath_content]

/-- Witness for `int_set_flush_renders_decimal` at `0x10` over the concrete
parse-mode instance. -/
theorem int_set_flush_renders_decimal_witness :
    getter sampleIntProp "val" hexParseCore = .ok (.vInt ((16 : Int))) ∧
    strContains (intRepr ((16 : Int))) "0x" = false := by
  have h := int_set_flush_renders_decimal sampleIntProp "val" hexParseCore
    "0x10" 16 rfl rfl rfl rfl rfl rfl rfl rfl (by decide) (by decide)
  exact ⟨h.1 rfl rfl (by decide), h.2.2.2⟩

theorem insertSorted_perm (a : String) (l : List String) :
    (insertSorted a l).Perm (a :: l) := by
  induction l with
  | nil => simp [insertSorted]
  | cons b rest ih =>
    rw [insertSorted]
    by_cases h : strLeB a b = true
    · rw [if_pos h]
    · rw [if_neg h]
      exact (ih.cons b).trans (List.Perm.swap a b rest)

theorem sortedStrings_perm (l : List String) : (sortedStrings l).Perm l := by
  induction l with
  | nil => simp [sortedStrings]
  | cons a rest ih =>
    rw [sortedStrings]
    exact (insertSorted_perm a (sortedStrings rest)).trans (ih.cons a)

theorem sortedStrings_nodup (l : List String) (h : l.Nodup) :
    (sortedStrings l).Nodup :=
  ((sortedStrings_perm l).nodup_iff).mpr h

theorem mem_sortedStrings (l : List String) (x : String) :
    x ∈ sortedStrings l ↔ x ∈ l :=
  (sortedStrings_perm l).mem_iff

theorem orderStep_foldr (cn init order : List String)
    (hord : order.Nodup) (hinit : init.Nodup) :
    (order.reverse).foldl (orderStep cn) init =
      order.filter (fun k => decide (k ∈ init ∨ k ∈ cn)) ++
        init.filter (fun k => decide (k ∉ order)) := by
  rw [List.foldl_reverse]
  induction order with
  | nil => simp
  | cons k ks ih =>
    rcases List.nodup_cons.mp hord with ⟨hk, hks⟩
    rw [List.foldr_cons, ih hks]
    by_cases hkinit : k ∈ init
    · have hkR : k ∈ ks.filter (fun x => decide (x ∈ init ∨ x ∈ cn)) ++
          init.filter (fun x => decide (x ∉ ks)) := by
        simp only [List.mem_append, List.mem_filter]
        exact Or.inr ⟨hkinit, by simp [hk]⟩
      have hkA : k ∉ ks.filter (fun x => decide (x ∈ init ∨ x ∈ cn)) := by
        intro hcontra
        exact hk (List.mem_of_mem_filter hcontra)
      have herase : (init.filter (fun x => decide (x ∉ ks))).erase k =
          init.filter (fun x => decide (x ∉ k :: ks)) := by
        rw [(hinit.filter _).erase_eq_filter, List.filter_filter]
        apply List.filter_congr
        intro x hx
        by_cases hxk : x = k
        · subst hxk; simp
        · simp [hxk, bne_iff_ne]
      rw [orderStep, if_pos hkR, List.erase_append_right _ hkA, herase,
        List.filter_cons_of_pos (by simp [hkinit]), List.cons_append]
    · have hkR : k ∉ ks.filter (fun x => decide (x ∈ init ∨ x ∈ cn)) ++
          init.filter (fun x => decide (x ∉ ks)) := by
        simp only [List.mem_append, List.mem_filter]
        rintro (⟨hmem, _⟩ | ⟨hmem, _⟩)
        · exact hk hmem
        · exact hkinit hmem
      have hBeq : init.filter (fun x => decide (x ∉ ks)) =
          init.filter (fun x => decide (x ∉ k :: ks)) := by
        apply List.filter_congr
        intro x hx
        have hxk : x ≠ k := fun h => hkinit (h ▸ hx)
        simp [List.mem_cons, hxk]
      rw [orderStep, if_neg hkR]
      by_cases hkcn : k ∈ cn
      · rw [if_pos hkcn, List.filter_cons_of_pos (by simp [hkcn]),
          List.cons_append, hBeq]
      · rw [if_neg hkcn, List.filter_cons_of_neg (by simp [hkinit, hkcn]), hBeq]

theorem append_missing_foldl (sc : List String) (hsc : sc.Nodup) :
    ∀ R : List String,
      sc.foldl (fun acc key => if key ∈ acc then acc else acc ++ [key]) R =
        R ++ sc.filter (fun k => decide (k ∉ R)) := by
  induction sc with
  | nil => intro R; simp
  | cons k ks ih =>
    intro R
    rcases List.nodup_cons.mp hsc with ⟨hk, hks⟩
    rw [List.foldl_cons]
    by_cases hkR : k ∈ R
    · rw [if_pos hkR, ih hks R, List.filter_cons_of_neg (by simp [hkR])]
    · rw [if_neg hkR, ih hks (R ++ [k]),
        List.filter_cons_of_pos (by simp [hkR])]
      have hfilt : ks.filter (fun x => decide (x ∉ R ++ [k])) =
          ks.filter (fun x => decide (x ∉ R)) := by
        apply List.filter_congr
        intro x hx
        have hxk : x ≠ k := fun h => hk (h ▸ hx)
        simp [List.mem_append, hxk]
      rw [hfilt]
      simp

/-- C1 amended: the emission order computed by `_do_add_parse_bits` is the
priority list filtered to names that are either staged scalars or child
properties (in the priority list's order), then the remaining staged
scalars in property-store order — which is the order of their most recent
staging, since `_nonxml_fset` deletes and re-adds a key — then the child
properties not named in the priority list, sorted by field name. -/
theorem do_order_priority_staging_children
    (propkeys childnames order : List String)
    (hkeys : propkeys.Nodup) (hord : order.Nodup) (hchild : childnames.Nodup) :
    do_order_calc propkeys childnames order =
      order.filter (fun k => decide ((k ∈ propkeys ∧ k ∉ childnames) ∨ k ∈ childnames))
        ++ propkeys.filter (fun k => decide (k ∉ childnames ∧ k ∉ order))
        ++ (sortedStrings childnames).filter (fun k => decide (k ∉ order)) ∧
    (∀ (ps : List (String × PyVal)) (name : String) (v : PyVal),
      (nonxml_fset ps name v).map Prod.fst =
        ((ps.map Prod.fst).filter (fun k => decide (k ≠ name))) ++ [name]) := by
  constructor
  · simp only [do_order_calc]
    have hinitnodup : (propkeys.filter (fun p => decide (p ∉ childnames))).Nodup :=
      hkeys.filter _
    rw [orderStep_foldr childnames _ order hord hinitnodup]
    rw [append_missing_foldl (sortedStrings childnames)
      (sortedStrings_nodup childnames hchild)]
    have hseg1 : order.filter (fun k =>
        decide (k ∈ propkeys.filter (fun p => decide (p ∉ childnames)) ∨ k ∈ childnames)) =
        order.filter (fun k => decide ((k ∈ propkeys ∧ k ∉ childnames) ∨ k ∈ childnames)) := by
      apply List.filter_congr
      intro k _
      simp [List.mem_filter]
    have hseg2 : (propkeys.filter (fun p => decide (p ∉ childnames))).filter
        (fun k => decide (k ∉ order)) =
        propkeys.filter (fun k => decide (k ∉ childnames ∧ k ∉ order)) := by
      rw [List.filter_filter]
      apply List.filter_congr
      intro k _
      simp [Bool.and_comm]
    have hseg3 : (sortedStrings childnames).filter (fun k =>
        decide (k ∉ order.filter (fun x =>
            decide (x ∈ propkeys.filter (fun p => decide (p ∉ childnames)) ∨ x ∈ childnames)) ++
          (propkeys.filter (fun p => decide (p ∉ childnames))).filter
            (fun x => decide (x ∉ order)))) =
        (sortedStrings childnames).filter (fun k => decide (k ∉ order)) := by
      apply List.filter_congr
      intro k hkmem
      have hkcn : k ∈ childnames := (mem_sortedStrings childnames k).mp hkmem
      congr 1
      simp only [List.mem_append, List.mem_filter, eq_iff_iff]
      constructor
      · intro hcontra hkord
        exact hcontra (Or.inl ⟨hkord, by simp [hkcn]⟩)
      · rintro hkord (⟨h1, _⟩ | ⟨h1, _⟩)
        · exact hkord h1
        · exact absurd hkcn (by simpa using h1.2)
    rw [hseg3, hseg1, hseg2, List.append_assoc]
  · intro ps name v
    have hmapfilter : ∀ l : List (String × PyVal),
        (l.filter (fun e => !(e.1 == name))).map Prod.fst =
          (l.map Prod.fst).filter (fun k => decide (k ≠ name)) := by
      intro l
      induction l with
      | nil => simp
      | cons e rest ih =>
        by_cases he : e.1 = name
        · simp [he, ih]
        · simp [he, ih]
    rw [nonxml_fset, List.map_append, hmapfilter]
    simp

/-- Witness for `do_order_priority_staging_children` at a concrete
instance: priority list `["b", "kids"]`, staged scalars `a` then `b`, one
child property `kids`. -/
theorem do_order_priority_staging_children_witness :
    do_order_calc ["a", "b"] ["kids"] ["b", "kids"] = ["b", "kids", "a"] := by
  rw [(do_order_priority_staging_children ["a", "b"] ["kids"] ["b", "kids"]
    (by decide) (by decide) (by decide)).1]
  decide

/-- Parse-mode core with two raw-text properties and no priority list. -/
def restageCore : InstCore :=
  { propstore := [],
    xmlstate := { parent_xpath := "", relative_object_xpath := "",
                  is_build := false, xmlapi := [] },
    props := [("x", sampleStrProp), ("y", sampleStrProp)],
    childnames := [], xml_prop_order := [] }

/-- C1 counterexample: stage `x`, then `y`, then `x` again. The fields were
originally staged in the order `x`, `y`, but the emission order computed by
`_do_add_parse_bits` is `y`, `x`, because re-staging `x` moved it to the
end of the property store. -/
theorem emission_order_restaging_counterexample :
    (do
      let c1 ← setter sampleStrProp "x" restageCore (.vStr "1") true
      let c2 ← setter sampleStrProp "y" c1 (.vStr "2") true
      let c3 ← setter sampleStrProp "x" c2 (.vStr "3") true
      emission_order (.mk c3 .nil)) = .ok ["y", "x"] ∧
    (["y", "x"] : List String) ≠ ["x", "y"] :=
  ⟨by decide, by decide⟩

theorem strHasPre_slash_self (p : String) : strHasPre (p ++ "/") p = false := by
  rw [Bool.eq_false_iff]
  intro h
  have hlen := (List.isPrefixOf_iff_prefix.mp h).length_le
  rw [String.data_append] at hlen
  simp at hlen

theorem pathWithin_self (p : String) : pathWithin p p = true := by
  simp [pathWithin]

theorem pathWithin_of_under (root c q : String)
    (h1 : strHasPre (root ++ "/") c = true) (h2 : pathWithin c q = true) :
    strHasPre (root ++ "/") q = true := by
  rcases Bool.or_eq_true_iff.mp h2 with hq | hq
  · have heq : q = c := (beq_iff_eq ..).mp hq
    subst heq
    exact h1
  · rw [strHasPre, List.isPrefixOf_iff_prefix]
    have ha : (root ++ "/").data <+: c.data := List.isPrefixOf_iff_prefix.mp h1
    have hb : c.data <+: (c ++ "/").data := by
      rw [String.data_append]
      exact List.prefix_append _ _
    have hc : (c ++ "/").data <+: q.data := List.isPrefixOf_iff_prefix.mp hq
    exact (ha.trans hb).trans hc

theorem pathWithin_false_of_under (root c q : String)
    (h1 : strHasPre (root ++ "/") c = true)
    (h2 : strHasPre (root ++ "/") q = false) : pathWithin c q = false := by
  rw [Bool.eq_false_iff]
  intro hcontra
  rw [pathWithin_of_under root c q h1 hcontra] at h2
  exact Bool.noConfusion h2

theorem pathWithin_false_parts (p q : String) (h : pathWithin p q = false) :
    q ≠ p ∧ strHasPre (p ++ "/") q = false := by
  rw [pathWithin, Bool.or_eq_false_iff] at h
  exact ⟨fun hc => by simp [hc] at h, h.2⟩

theorem lookupPath_node_clear_outside (d : Doc) (p q : String)
    (h : pathWithin p q = false) :
    (d.node_clear p).lookupPath q = d.lookupPath q := by
  rcases pathWithin_false_parts p q h with ⟨hqp, hqpre⟩
  induction d with
  | nil => rfl
  | cons e t ih =>
    rw [Doc.node_clear]
    by_cases hdrop : strHasPre (p ++ "/") e.1 = true
    · rw [if_pos hdrop, ih]
      rw [Doc.lookupPath, if_neg ?_]
      intro hcontra
      rw [hcontra] at hdrop
      rw [hdrop] at hqpre
      exact Bool.noConfusion hqpre
    · rw [if_neg hdrop]
      by_cases hep : e.1 = p
      · rw [if_pos hep, Doc.lookupPath, Doc.lookupPath,
          if_neg (by rw [hep]; exact fun hc => hqp hc.symm),
          if_neg (by rw [hep]; exact fun hc => hqp hc.symm)]
        exact ih
      · rw [if_neg hep, Doc.lookupPath, Doc.lookupPath]
        by_cases heq : e.1 = q
        · rw [if_pos heq, if_pos heq]
        · rw [if_neg heq, if_neg heq]
          exact ih

theorem lookupPath_node_clear_self (d : Doc) (p : String)
    (h : (d.lookupPath p).isSome = true) :
    (d.node_clear p).lookupPath p = some "" := by
  induction d with
  | nil => simp [Doc.lookupPath] at h
  | cons e t ih =>
    rw [Doc.node_clear]
    by_cases hdrop : strHasPre (p ++ "/") e.1 = true
    · have hep : e.1 ≠ p := by
        intro hc
        rw [hc, strHasPre_slash_self] at hdrop
        exact Bool.noConfusion hdrop
      rw [if_pos hdrop]
      rw [Doc.lookupPath, if_neg hep] at h
      exact ih h
    · rw [if_neg hdrop]
      by_cases hep : e.1 = p
      · rw [if_pos hep, Doc.lookupPath, if_pos hep]
      · rw [if_neg hep, Doc.lookupPath, if_neg hep]
        rw [Doc.lookupPath, if_neg hep] at h
        exact ih h

theorem lookupPath_force_remove_outside (d : Doc) (p q : String)
    (h : pathWithin p q = false) :
    (d.node_force_remove p).lookupPath q = d.lookupPath q := by
  induction d with
  | nil => rfl
  | cons e t ih =>
    rw [Doc.node_force_remove]
    by_cases hdrop : pathWithin p e.1 = true
    · rw [if_pos hdrop, ih, Doc.lookupPath, if_neg ?_]
      intro hcontra
      rw [hcontra] at hdrop
      rw [hdrop] at h
      exact Bool.noConfusion h
    · rw [if_neg hdrop, Doc.lookupPath, Doc.lookupPath]
      by_cases heq : e.1 = q
      · rw [if_pos heq, if_pos heq]
      · rw [if_neg heq, if_neg heq]
        exact ih

theorem lookupPath_force_remove_self (d : Doc) (p : String) :
    (d.node_force_remove p).lookupPath p = none := by
  induction d with
  | nil => rfl
  | cons e t ih =>
    rw [Doc.node_force_remove]
    by_cases hdrop : pathWithin p e.1 = true
    · rw [if_pos hdrop]
      exact ih
    · rw [if_neg hdrop, Doc.lookupPath, if_neg ?_]
      · exact ih
      · intro hcontra
        rw [hcontra, pathWithin_self] at hdrop
        exact hdrop rfl

theorem removeAllNodes_frame (bl : BuilderList) (doc : Doc) (root q : String)
    (hn : nestedList root bl = true) (hq : strHasPre (root ++ "/") q = false) :
    (removeAllNodes bl doc).lookupPath q = doc.lookupPath q := by
  match bl with
  | .nil => rfl
  | .cons b rest =>
    rw [removeAllNodes]
    rw [nestedList] at hn
    rcases Bool.and_eq_true_iff.mp hn with ⟨hn1, hn3⟩
    rcases Bool.and_eq_true_iff.mp hn1 with ⟨hpre, _⟩
    rw [removeAllNodes_frame rest _ root q hn3 hq]
    exact lookupPath_force_remove_outside doc _ q
      (pathWithin_false_of_under root _ q hpre hq)
termination_by sizeOf bl

mutual
theorem clearBuilder_frame (b : Builder) (doc : Doc) (ls : Bool)
    (b2 : Builder) (doc2 : Doc) (hn : nestedBuilder b = true)
    (h : clearBuilder b doc ls = .ok (b2, doc2)) :
    ∀ q, pathWithin b.core.xmlstate.abs_xpath q = false →
      doc2.lookupPath q = doc.lookupPath q := by
  intro q hq
  rcases pathWithin_false_parts _ q hq with ⟨hqp, hqpre⟩
  match b, hn, h, hq, hqpre with
  | .mk core cf, hn, h, hq, hqpre =>
    rw [clearBuilder] at h
    rw [nestedBuilder] at hn
    cases hp : clearProps core.props core with
    | error e => rw [hp] at h; exact Except.noConfusion h
    | ok core2 =>
      rw [hp] at h
      dsimp only at h
      cases hcf : clearForest cf doc with
      | error e => rw [hcf] at h; exact Except.noConfusion h
      | ok res =>
        obtain ⟨cfr, docf⟩ := res
        rw [hcf] at h
        dsimp only at h
        have hforest := clearForest_frame core.xmlstate.abs_xpath cf doc
          cfr docf hn hcf q hqpre
        by_cases hidx : (endsWithIndex core.xmlstate.abs_xpath || ls) = true
        · rw [if_pos hidx] at h
          have hd : doc2 = docf.node_clear core.xmlstate.abs_xpath :=
            ((Prod.mk.injEq .. ▸ Except.ok.inj h).2).symm
          rw [hd, lookupPath_node_clear_outside docf core.xmlstate.abs_xpath q
            (by exact hq), hforest]
        · rw [if_neg hidx] at h
          have hd : doc2 = docf.node_force_remove core.xmlstate.abs_xpath :=
            ((Prod.mk.injEq .. ▸ Except.ok.inj h).2).symm
          rw [hd, lookupPath_force_remove_outside docf core.xmlstate.abs_xpath q
            (by exact hq), hforest]
termination_by (sizeOf b, 0)

theorem clearForest_frame (root : String) (cf : ChildForest) (doc : Doc)
    (cf2 : ChildForest) (doc2 : Doc) (hn : nestedForest root cf = true)
    (h : clearForest cf doc = .ok (cf2, doc2)) :
    ∀ q, strHasPre (root ++ "/") q = false →
      doc2.lookupPath q = doc.lookupPath q := by
  intro q hq
  match cf, hn, h with
  | .nil, hn, h =>
    rw [clearForest] at h
    have : doc2 = doc := ((Prod.mk.injEq .. ▸ Except.ok.inj h).2).symm
    rw [this]
  | .cons n single objs rest, hn, h =>
    rw [clearForest] at h
    rw [nestedForest] at hn
    rcases Bool.and_eq_true_iff.mp hn with ⟨hobjs, hrest⟩
    by_cases hs : single = true
    · rw [if_pos hs] at h
      cases hobj : clearSingleList objs doc with
      | error e => rw [hobj] at h; exact Except.noConfusion h
      | ok r1 =>
        obtain ⟨bl1, d1⟩ := r1
        rw [hobj] at h
        dsimp only at h
        cases hr : clearForest rest d1 with
        | error e => rw [hr] at h; exact Except.noConfusion h
        | ok r2 =>
          obtain ⟨cf3, d2⟩ := r2
          rw [hr] at h
          dsimp only at h
          have hd : doc2 = d2 :=
            ((Prod.mk.injEq .. ▸ Except.ok.inj h).2).symm
          rw [hd, clearForest_frame root rest d1 cf3 d2 hrest hr q hq,
            clearSingleList_frame root objs doc bl1 d1 hobjs hobj q hq]
    · rw [if_neg hs] at h
      cases hr : clearForest rest (removeAllNodes objs doc) with
      | error e => rw [hr] at h; exact Except.noConfusion h
      | ok r2 =>
        obtain ⟨cf3, d2⟩ := r2
        rw [hr] at h
        dsimp only at h
        have hd : doc2 = d2 :=
          ((Prod.mk.injEq .. ▸ Except.ok.inj h).2).symm
        rw [hd,
          clearForest_frame root rest (removeAllNodes objs doc) cf3 d2 hrest hr q hq,
          removeAllNodes_frame objs doc root q hobjs hq]
termination_by (sizeOf cf, 0)

theorem clearSingleList_frame (root : String) (bl : BuilderList) (doc : Doc)
    (bl2 : BuilderList) (doc2 : Doc) (hn : nestedList root bl = true)
    (h : clearSingleList bl doc = .ok (bl2, doc2)) :
    ∀ q, strHasPre (root ++ "/") q = false →
      doc2.lookupPath q = doc.lookupPath q := by
  intro q hq
  match bl, hn, h with
  | .nil, hn, h =>
    rw [clearSingleList] at h
    have : doc2 = doc := ((Prod.mk.injEq .. ▸ Except.ok.inj h).2).symm
    rw [this]
  | .cons b rest, hn, h =>
    rw [clearSingleList] at h
    rw [nestedList] at hn
    rcases Bool.and_eq_true_iff.mp hn with ⟨hb1, hrest⟩
    rcases Bool.and_eq_true_iff.mp hb1 with ⟨hpre, hnb⟩
    cases hb : clearBuilder b doc false with
    | error e => rw [hb] at h; exact Except.noConfusion h
    | ok r1 =>
      obtain ⟨bb, d1⟩ := r1
      rw [hb] at h
      dsimp only at h
      cases hr : clearSingleList rest d1 with
      | error e => rw [hr] at h; exact Except.noConfusion h
      | ok r2 =>
        obtain ⟨bl3, d2⟩ := r2
        rw [hr] at h
        dsimp only at h
        have hd : doc2 = d2 :=
          ((Prod.mk.injEq .. ▸ Except.ok.inj h).2).symm
        rw [hd, clearSingleList_frame root rest d1 bl3 d2 hrest hr q hq,
          clearBuilder_frame b doc false bb d1 hnb hb q
            (pathWithin_false_of_under root _ q hpre hq)]
termination_by (sizeOf bl, 1)
end

/-- C9: a successful `clear` on a well-nested instance whose node exists
blanks the node in place — it keeps its path addressable with empty
content and every path outside its subtree (in particular every sibling's
indexed path) keeps its previous content — exactly when the instance's
absolute xpath ends in a sibling index or a stub was requested; otherwise
the node is removed entirely, with the same frame on the rest of the
document. -/
theorem clear_stub_or_remove (core : InstCore) (cf : ChildForest) (doc : Doc)
    (ls : Bool) (b2 : Builder) (doc2 : Doc)
    (hn : nestedBuilder (.mk core cf) = true)
    (hdoc : (doc.lookupPath core.xmlstate.abs_xpath).isSome = true)
    (h : clearBuilder (.mk core cf) doc ls = .ok (b2, doc2)) :
    ((endsWithIndex core.xmlstate.abs_xpath || ls) = true →
      doc2.lookupPath core.xmlstate.abs_xpath = some "" ∧
      ∀ q, pathWithin core.xmlstate.abs_xpath q = false →
        doc2.lookupPath q = doc.lookupPath q) ∧
    ((endsWithIndex core.xmlstate.abs_xpath || ls) = false →
      doc2.lookupPath core.xmlstate.abs_xpath = none ∧
      ∀ q, pathWithin core.xmlstate.abs_xpath q = false →
        doc2.lookupPath q = doc.lookupPath q) := by
  rw [clearBuilder] at h
  rw [nestedBuilder] at hn
  cases hp : clearProps core.props core with
  | error e => rw [hp] at h; exact Except.noConfusion h
  | ok core2 =>
    rw [hp] at h
    dsimp only at h
    cases hcf : clearForest cf doc with
    | error e => rw [hcf] at h; exact Except.noConfusion h
    | ok res =>
      obtain ⟨cfr, docf⟩ := res
      rw [hcf] at h
      dsimp only at h
      have hforest : ∀ q, strHasPre (core.xmlstate.abs_xpath ++ "/") q = false →
          docf.lookupPath q = doc.lookupPath q :=
        clearForest_frame core.xmlstate.abs_xpath cf doc cfr docf hn hcf
      have hatp : docf.lookupPath core.xmlstate.abs_xpath =
          doc.lookupPath core.xmlstate.abs_xpath :=
        hforest core.xmlstate.abs_xpath (strHasPre_slash_self _)
      constructor
      · intro hidx
        rw [if_pos hidx] at h
        have hd : doc2 = docf.node_clear core.xmlstate.abs_xpath :=
          ((Prod.mk.injEq .. ▸ Except.ok.inj h).2).symm
        subst hd
        constructor
        · exact lookupPath_node_clear_self docf _ (by rw [hatp]; exact hdoc)
        · intro q hq
          rcases pathWithin_false_parts _ q hq with ⟨hqp, hqpre⟩
          rw [lookupPath_node_clear_outside docf _ q hq]
          exact hforest q hqpre
      · intro hidx
        rw [if_neg (by rw [hidx]; exact Bool.noConfusion)] at h
        have hd : doc2 = docf.node_force_remove core.xmlstate.abs_xpath :=
          ((Prod.mk.injEq .. ▸ Except.ok.inj h).2).symm
        subst hd
        constructor
        · exact lookupPath_force_remove_self docf _
        · intro q hq
          rcases pathWithin_false_parts _ q hq with ⟨hqp, hqpre⟩
          rw [lookupPath_force_remove_outside docf _ q hq]
          exact hforest q hqpre

theorem clearBuilder_leaf (core : InstCore) (doc : Doc) (ls : Bool)
    (core2 : InstCore) (hp : clearProps core.props core = .ok core2) :
    clearBuilder (.mk core .nil) doc ls =
      .ok (.mk core2 .nil,
        if endsWithIndex core.xmlstate.abs_xpath || ls then
          doc.node_clear core.xmlstate.abs_xpath
        else doc.node_force_remove core.xmlstate.abs_xpath) := by
  rw [clearBuilder, hp]
  dsimp only
  rw [clearForest]
  dsimp only
  by_cases hidx : (endsWithIndex core.xmlstate.abs_xpath || ls) = true
  · rw [if_pos hidx, if_pos hidx]
  · rw [if_neg hidx, if_neg hidx]

/-- A parse-mode leaf instance sitting at sibling slot 2 of
`./devices/disk`. -/
def idxClearCore : InstCore :=
  { propstore := [],
    xmlstate := { parent_xpath := "",
                  relative_object_xpath := "./devices/disk[2]",
                  is_build := false, xmlapi := [] },
    props := [], childnames := [], xml_prop_order := [] }

/-- A parse-mode leaf instance at the document root. -/
def rootClearCore : InstCore :=
  { propstore := [],
    xmlstate := { parent_xpath := "", relative_object_xpath := "",
                  is_build := false, xmlapi := [] },
    props := [], childnames := [], xml_prop_order := [] }

/-- Three same-type siblings, the second carrying an attribute. -/
def sibDoc : Doc :=
  [("./devices/disk[1]", "d1"), ("./devices/disk[2]", "d2"),
   ("./devices/disk[2]/@type", "qcow"), ("./devices/disk[3]", "d3")]

/-- Witness for `clear_stub_or_remove`: clearing the indexed disk[2]
instance leaves a blank stub at its path with disk[1] and disk[3]
untouched; clearing the non-indexed root instance removes its node. -/
theorem clear_stub_or_remove_witness :
    (Doc.node_clear sibDoc "./devices/disk[2]").lookupPath "./devices/disk[2]" =
      some "" ∧
    (Doc.node_clear sibDoc "./devices/disk[2]").lookupPath "./devices/disk[3]" =
      some "d3" ∧
    (Doc.node_clear sibDoc "./devices/disk[2]").lookupPath "./devices/disk[1]" =
      some "d1" ∧
    (Doc.node_force_remove [(".", "r")] ".").lookupPath "." = none := by
  have hclear : clearBuilder (.mk idxClearCore .nil) sibDoc false =
      .ok (.mk idxClearCore .nil, Doc.node_clear sibDoc "./devices/disk[2]") := by
    rw [clearBuilder_leaf idxClearCore sibDoc false idxClearCore rfl]
    rfl
  have hn : nestedBuilder (.mk idxClearCore .nil) = true := by
    rw [nestedBuilder, nestedForest]
  have hmain := (clear_stub_or_remove idxClearCore .nil sibDoc false _ _ hn
    (by decide) hclear).1 (by decide)
  have hclear2 : clearBuilder (.mk rootClearCore .nil) [(".", "r")] false =
      .ok (.mk rootClearCore .nil, Doc.node_force_remove [(".", "r")] ".") := by
    rw [clearBuilder_leaf rootClearCore [(".", "r")] false rootClearCore rfl]
    rfl
  have hn2 : nestedBuilder (.mk rootClearCore .nil) = true := by
    rw [nestedBuilder, nestedForest]
  have hmain2 := (clear_stub_or_remove rootClearCore .nil [(".", "r")] false _ _
    hn2 (by decide) hclear2).2 (by decide)
  refine ⟨hmain.1, ?_, ?_, hmain2.1⟩
  · exact (hmain.2 "./devices/disk[3]" (by decide)).trans (by decide)
  · exact (hmain.2 "./devices/disk[1]" (by decide)).trans (by decide)
